import Mathlib

/-
Verification development for the blacklist-alliance-client repository.

This file shallowly embeds the resilience core of src/client.js: the
circuit breaker (client.js:172-256), retryability classification
(client.js:262-274), the batching engine (client.js:280-288), the result
mergers (client.js:558-620), the email pre-processing of emailBulk
(client.js:739-762), and the retry/backoff request driver _request
(client.js:394-553).

Modelling conventions:
  - JS numbers that hold counts, timestamps or HTTP statuses become Nat.
  - JS objects used as string-keyed maps become functions into Option.
  - The asynchronous _request control flow becomes a pure function over a
    Script describing what the outside world (the fetch call and the
    external AbortSignal) does at each point; the function returns the
    final outcome, the final circuit-breaker state and an ordered trace of
    observable events (network calls, hook invocations, breaker checks,
    breaker state changes, backoff sleeps).
  - src/errors.js in the repository only contains the base class; the
    subclasses and the fromResponse factory exist only in index.d.ts, so
    error kinds are modelled from the spec error taxonomy and the .d.ts
    declarations: every classified error carries its HTTP status where one
    exists, and the circuit-open error is never retryable.
-/

namespace BLA

/-- The circuit breaker states of client.js:142 (CLOSED, OPEN, HALF_OPEN). -/
inductive CircuitState
  | CLOSED
  | OPEN
  | HALF_OPEN
  deriving DecidableEq, Repr

/-- The circuit breaker block built in the constructor (client.js:137-147).
A disabled breaker is modelled with `enabled := false` and arbitrary other
fields, mirroring the bare `\x7b enabled: false \x7d` object of the source. -/
structure CircuitBreaker where
  enabled : Bool
  failureThreshold : Nat
  resetTimeoutMs : Nat
  state : CircuitState
  failures : Nat
  lastFailureTime : Option Nat
  deriving DecidableEq, Repr

/-- The breaker as freshly constructed with a circuitBreaker option
(client.js:137-147): enabled, CLOSED, zero failures, no failure time. -/
def freshCB (failureThreshold resetTimeoutMs : Nat) : CircuitBreaker :=
  { enabled := true
    failureThreshold := failureThreshold
    resetTimeoutMs := resetTimeoutMs
    state := .CLOSED
    failures := 0
    lastFailureTime := none }

/-- The breaker of a client constructed without a circuitBreaker option
(client.js:147). -/
def disabledCB : CircuitBreaker :=
  { enabled := false
    failureThreshold := 0
    resetTimeoutMs := 0
    state := .CLOSED
    failures := 0
    lastFailureTime := none }

/-- Classified errors thrown by the client. Modelled from the spec error
taxonomy (spec section 7) and index.d.ts, since src/errors.js only ships the
base class: apiErr carries the HTTP status given to
BlacklistAllianceError.fromResponse; timeoutErr is TimeoutError with its
message ("Request aborted" for external cancellation, "Request timeout" for
the internal per-attempt timeout, client.js:517-519); networkErr is
NetworkError; circuitErr is CircuitBreakerError; validationErr is
ValidationError raised before any network activity. -/
inductive JsErr
  | apiErr (status : Nat)
  | timeoutErr (msg : String)
  | networkErr
  | circuitErr
  | validationErr
  deriving DecidableEq, Repr

/-- Observable events of one _request invocation, in program order. -/
inductive Event
  | cbCheck
  | sleep
  | hookRequest
  | fetch
  | hookResponse
  | recordSuccessEv
  | recordFailureEv
  | stateChange (oldS newS : CircuitState)
  deriving DecidableEq, Repr

/-- Embeds _changeCircuitState (client.js:244-256): mutate the state and
notify the observer (the notification is the stateChange trace event). -/
def changeCircuitState (cb : CircuitBreaker) (newState : CircuitState) :
    CircuitBreaker × List Event :=
  ({ cb with state := newState }, [.stateChange cb.state newState])

/-- Embeds _checkCircuitBreaker (client.js:172-191) at clock value `now`:
possibly transition OPEN to HALF_OPEN after the cooldown, then reject with
a CircuitBreakerError while still OPEN. Returns the updated breaker, the
state-change events, and the rejection if any. -/
def checkCircuitBreaker (cb : CircuitBreaker) (now : Nat) :
    CircuitBreaker × List Event × Option JsErr :=
  if cb.enabled = false then (cb, [], none)
  else
    let step :=
      match cb.state, cb.lastFailureTime with
      | .OPEN, some t =>
        if cb.resetTimeoutMs ≤ now - t then changeCircuitState cb .HALF_OPEN
        else (cb, [])
      | _, _ => (cb, [])
    if step.1.state = .OPEN then (step.1, step.2, some .circuitErr)
    else (step.1, step.2, none)

/-- Embeds _recordSuccess (client.js:197-210). -/
def recordSuccess (cb : CircuitBreaker) : CircuitBreaker × List Event :=
  if cb.enabled = false then (cb, [])
  else
    match cb.state with
    | .HALF_OPEN => changeCircuitState { cb with failures := 0 } .CLOSED
    | .CLOSED => ({ cb with failures := 0 }, [])
    | .OPEN => (cb, [])

/-- Embeds _recordFailure (client.js:216-238) at clock value `now`:
increment the counter, stamp the failure time, then run the two sequential
transition checks of the source (CLOSED to OPEN at the threshold, then
HALF_OPEN to OPEN). -/
def recordFailure (cb : CircuitBreaker) (now : Nat) : CircuitBreaker × List Event :=
  if cb.enabled = false then (cb, [])
  else
    let cb1 : CircuitBreaker :=
      { cb with failures := cb.failures + 1, lastFailureTime := some now }
    let step2 :=
      if cb1.state = .CLOSED ∧ cb1.failureThreshold ≤ cb1.failures then
        changeCircuitState cb1 .OPEN
      else (cb1, [])
    let step3 :=
      if step2.1.state = .HALF_OPEN then changeCircuitState step2.1 .OPEN
      else (step2.1, [])
    (step3.1, step2.2 ++ step3.2)

/-- Embeds _isRetryable (client.js:262-274): NetworkError and TimeoutError
retry; a classified API error retries on 5xx, 408 and 429; the
CircuitBreakerError and ValidationError carry no qualifying status and do
not retry. -/
def isRetryable : JsErr → Bool
  | .networkErr => true
  | .timeoutErr _ => true
  | .apiErr status => decide (500 ≤ status) || status == 408 || status == 429
  | .circuitErr => false
  | .validationErr => false

/-- What one fetch attempt of _request does, as seen by the code:
the response resolves ok (2xx), resolves with a non-ok status, rejects with
an AbortError (the flag records whether the external signal stood aborted
when the catch block inspects it, client.js:516), or rejects with a
connection-level error code (client.js:525). -/
inductive AttemptRes
  | okResponse
  | httpError (status : Nat)
  | abortCaught (externalAborted : Bool)
  | connError
  deriving DecidableEq, Repr

/-- The environment of one _request invocation: whether the external signal
is already aborted at the pre-loop check (client.js:407), whether it stands
aborted at the in-loop check before attempt `a` runs (client.js:435), what
the fetch of attempt `a` produces if reached, and the Date.now values
observed by the breaker check and by recordFailure. -/
structure Script where
  preAborted : Bool
  checkAborted : Nat → Bool
  fetchResult : Nat → AttemptRes
  now : Nat
  failTime : Nat

/-- Response data of a completed _request: the dry-run canned mock of
_getDryRunResponse (client.js:346-385, payload out of scope per the spec)
or a real parsed response. -/
inductive RespData
  | mock
  | real
  deriving DecidableEq, Repr

/-- Result of one _request invocation: the value returned or error thrown,
the breaker state afterwards, and the ordered trace of observable events. -/
structure ReqResult where
  outcome : Except JsErr RespData
  cb : CircuitBreaker
  trace : List Event

/-- The retry loop of _request (client.js:413-547), structurally recursive
on the remaining iteration count `fuel` (the source loop runs attempt = 0 ..
retries, so it is entered with fuel = retries + 1). The fuel-0 case embeds
the fall-through after the loop (client.js:549-552), unreachable from the
entry fuel; its thrown default is arbitrary. -/
def requestLoop (s : Script) (retries : Nat) (attempt fuel : Nat)
    (cb : CircuitBreaker) (lastError : Option JsErr) : ReqResult :=
  match fuel with
  | 0 =>
    let rf := recordFailure cb s.failTime
    { outcome := .error (lastError.getD (.timeoutErr "Request timeout"))
      cb := rf.1
      trace := .recordFailureEv :: rf.2 }
  | fuel + 1 =>
    let pre : List Event := if 0 < attempt then [.sleep] else []
    if s.checkAborted attempt then
      -- client.js:435-436: the abort check after the backoff throws a
      -- TimeoutError that the catch block of the same loop classifies.
      let e := JsErr.timeoutErr "Request aborted"
      if isRetryable e && decide (attempt < retries) then
        let r := requestLoop s retries (attempt + 1) fuel cb (some e)
        { outcome := r.outcome, cb := r.cb, trace := pre ++ r.trace }
      else
        let rf := recordFailure cb s.failTime
        { outcome := .error e, cb := rf.1
          trace := pre ++ [.recordFailureEv] ++ rf.2 }
    else
      match s.fetchResult attempt with
      | .okResponse =>
        let rs := recordSuccess cb
        { outcome := .ok .real, cb := rs.1
          trace := pre ++ [.hookRequest, .fetch, .hookResponse, .recordSuccessEv] ++ rs.2 }
      | .httpError status =>
        let e := JsErr.apiErr status
        if isRetryable e && decide (attempt < retries) then
          let r := requestLoop s retries (attempt + 1) fuel cb (some e)
          { outcome := r.outcome, cb := r.cb
            trace := pre ++ [.hookRequest, .fetch] ++ r.trace }
        else
          let rf := recordFailure cb s.failTime
          { outcome := .error e, cb := rf.1
            trace := pre ++ [.hookRequest, .fetch, .recordFailureEv] ++ rf.2 }
      | .abortCaught ext =>
        let e := JsErr.timeoutErr (if ext then "Request aborted" else "Request timeout")
        if ext then
          -- client.js:522-524: a user abort is rethrown with no retry and
          -- with no failure report to the breaker.
          { outcome := .error e, cb := cb, trace := pre ++ [.hookRequest, .fetch] }
        else if isRetryable e && decide (attempt < retries) then
          let r := requestLoop s retries (attempt + 1) fuel cb (some e)
          { outcome := r.outcome, cb := r.cb
            trace := pre ++ [.hookRequest, .fetch] ++ r.trace }
        else
          let rf := recordFailure cb s.failTime
          { outcome := .error e, cb := rf.1
            trace := pre ++ [.hookRequest, .fetch, .recordFailureEv] ++ rf.2 }
      | .connError =>
        let e := JsErr.networkErr
        if isRetryable e && decide (attempt < retries) then
          let r := requestLoop s retries (attempt + 1) fuel cb (some e)
          { outcome := r.outcome, cb := r.cb
            trace := pre ++ [.hookRequest, .fetch] ++ r.trace }
        else
          let rf := recordFailure cb s.failTime
          { outcome := .error e, cb := rf.1
            trace := pre ++ [.hookRequest, .fetch, .recordFailureEv] ++ rf.2 }

/-- Embeds _request (client.js:394-553): dry-run short circuit, breaker
check, pre-loop abort check, then the retry loop with fuel retries + 1. -/
def request (dryRun : Bool) (retries : Nat) (cb : CircuitBreaker) (s : Script) :
    ReqResult :=
  if dryRun then { outcome := .ok .mock, cb := cb, trace := [] }
  else
    let chk := checkCircuitBreaker cb s.now
    match chk.2.2 with
    | some e => { outcome := .error e, cb := chk.1, trace := .cbCheck :: chk.2.1 }
    | none =>
      if s.preAborted then
        { outcome := .error (.timeoutErr "Request aborted"), cb := chk.1
          trace := .cbCheck :: chk.2.1 }
      else
        let r := requestLoop s retries 0 (retries + 1) chk.1 none
        { outcome := r.outcome, cb := r.cb
          trace := .cbCheck :: chk.2.1 ++ r.trace }

/-- Recognizer for fetch events. -/
def isFetchEv : Event → Bool
  | .fetch => true
  | _ => false

/-- Recognizer for breaker-check events. -/
def isCheckEv : Event → Bool
  | .cbCheck => true
  | _ => false

/-- Recognizer for backoff-sleep events. -/
def isSleepEv : Event → Bool
  | .sleep => true
  | _ => false

/-- Recognizer for breaker state-change events. -/
def isStChEv : Event → Bool
  | .stateChange _ _ => true
  | _ => false

/-- Recognizer for onRequest hook events. -/
def isHookReqEv : Event → Bool
  | .hookRequest => true
  | _ => false

/-- Recognizer for onResponse hook events. -/
def isHookRespEv : Event → Bool
  | .hookResponse => true
  | _ => false

/-- Recognizer for recordFailure events. -/
def isRecFailEv : Event → Bool
  | .recordFailureEv => true
  | _ => false

/-- Number of network calls performed by a _request invocation. -/
def fetchCount (r : ReqResult) : Nat := r.trace.countP isFetchEv

/-- Number of circuit-breaker consultations performed by a _request
invocation. -/
def checkCount (r : ReqResult) : Nat := r.trace.countP isCheckEv

/-- Number of backoff sleeps performed by a _request invocation. -/
def sleepCount (r : ReqResult) : Nat := r.trace.countP isSleepEv

/-- Number of failures reported to the circuit breaker by a _request
invocation. -/
def recFailCount (r : ReqResult) : Nat := r.trace.countP isRecFailEv

/-- Number of onRequest hook invocation points of a _request invocation. -/
def hookReqCount (r : ReqResult) : Nat := r.trace.countP isHookReqEv

/-- Number of onResponse hook invocation points of a _request invocation. -/
def hookRespCount (r : ReqResult) : Nat := r.trace.countP isHookRespEv

/-
Batching engine (client.js:280-288).
-/

/-- Fuel-bounded chunking loop: the source iterates i = 0, c, 2c, ... over
the list, so the list length bounds the iteration count; the fuel makes the
recursion structural and is always instantiated with the length. -/
def chunksOfAux (c : Nat) : Nat → List α → List (List α)
  | 0, _ => []
  | _, [] => []
  | fuel + 1, x :: xs => (x :: xs).take c :: chunksOfAux c fuel ((x :: xs).drop c)

/-- Splitting a list into consecutive chunks of size `c` (the slice loop of
_batchBySize, for a general chunk size). -/
def chunksOf (c : Nat) (l : List α) : List (List α) := chunksOfAux c l.length l

/-- Embeds _batchBySize (client.js:280-288): BATCH_LIMIT is 5000. -/
def batchBySize (items : List α) : List (List α) := chunksOf 5000 items

/-
Result mergers (client.js:558-620) and email helpers.
-/

/-- One per-batch bulk-lookup result as consumed by _mergeBulkResults,
after the array-unwrap normalization of client.js:573-574 (which is the
identity on plain result objects). Counters are Nat, array fields are
lists, and the string-keyed reasons and carrier objects are functions into
Option (κ is the carrier-info payload type, opaque to the merge). -/
structure BulkResult (κ : Type) where
  numbers : Nat
  count : Nat
  phones : List String
  supression : List String
  wireless : List String
  reasons : String → Option String
  carrier : String → Option κ

/-- Object.assign on a string-keyed object (client.js:581-582): keys of the
source overwrite keys of the target. -/
def objAssign (target source : String → Option v) : String → Option v :=
  fun k => match source k with
    | some x => some x
    | none => target k

/-- The empty merged accumulator of _mergeBulkResults (client.js:560-569). -/
def emptyBulk (κ : Type) : BulkResult κ :=
  { numbers := 0, count := 0, phones := [], supression := [], wireless := []
    reasons := fun _ => none, carrier := fun _ => none }

/-- One accumulation step of the _mergeBulkResults loop body
(client.js:576-582). -/
def mergeBulkStep (m r : BulkResult κ) : BulkResult κ :=
  { numbers := m.numbers + r.numbers
    count := m.count + r.count
    phones := m.phones ++ r.phones
    supression := m.supression ++ r.supression
    wireless := m.wireless ++ r.wireless
    reasons := objAssign m.reasons r.reasons
    carrier := objAssign m.carrier r.carrier }

/-- Embeds _mergeBulkResults (client.js:559-586). -/
def mergeBulkResults (results : List (BulkResult κ)) : BulkResult κ :=
  results.foldl mergeBulkStep (emptyBulk κ)

/-- One per-batch email result: the good field may be absent
(client.js:612 tests its truthiness before pushing). -/
structure EmailBatchResult where
  good : Option (List String)

/-- The merged email result shape (client.js:606-609). -/
structure EmailMerged where
  good : List String
  bad : List String
  deriving DecidableEq, Repr

/-- The good-list accumulation loop of _mergeEmailResults
(client.js:611-613). -/
def mergedGood (results : List EmailBatchResult) : List String :=
  results.foldl
    (fun acc r => match r.good with
      | some g => acc ++ g
      | none => acc) []

/-- Embeds _mergeEmailResults (client.js:605-620): concatenate the
per-batch good lists, then keep as bad every submitted address whose
lowercasing is not among the lowercased good addresses. -/
def mergeEmailResults (results : List EmailBatchResult)
    (submittedEmails : List String) : EmailMerged :=
  let good := mergedGood results
  let goodSet := good.map String.toLower
  { good := good
    bad := submittedEmails.filter (fun e => !(goodSet.contains e.toLower)) }

/-- Embeds _computeBadEmails (client.js:592-599), the single-batch variant
of the email merge. -/
def computeBadEmails (result : EmailBatchResult)
    (submittedEmails : List String) : EmailMerged :=
  let goodSet := (result.good.getD []).map String.toLower
  { good := result.good.getD []
    bad := submittedEmails.filter (fun e => !(goodSet.contains e.toLower)) }

/-
Email pre-processing of emailBulk (client.js:293-324, 739-762).
-/

/-- The sanitization inside _hashEmail (client.js:296): strip CR and LF,
lowercase, trim. -/
def hashSanitize (email : String) : String :=
  ((email.toList.filter (fun c => !(c == '\r' || c == '\n'))).asString).toLower.trim

/-- Embeds _hashEmail (client.js:294-298). The MD5 hex digest comes from
the Node crypto module, external to this repository, and is taken as the
function parameter `md5hex`. -/
def hashEmail (md5hex : String → String) (email : String) : String :=
  md5hex (hashSanitize email)

/-- The sanitization inside _validateEmail (client.js:306): strip CR and
LF, trim (no lowercasing). -/
def validateSanitize (email : String) : String :=
  ((email.toList.filter (fun c => !(c == '\r' || c == '\n'))).asString).trim

/-- The email regex test of client.js:308: one local part with no
whitespace and no at-sign, one at-sign, then a domain with no whitespace
and no at-sign containing a dot that is neither its first nor its last
character. -/
def validEmailFormat (s : String) : Bool :=
  match s.splitOn "@" with
  | [a, b] =>
    !a.isEmpty && a.toList.all (fun c => !c.isWhitespace) &&
    !b.isEmpty && b.toList.all (fun c => !c.isWhitespace) &&
    ((b.toList.drop 1).dropLast.contains '.')
  | _ => false

/-- Embeds _validateEmail (client.js:304-324): sanitize, test the format,
enforce the 254-character bound, return the sanitized address. -/
def validateEmail (email : String) : Except JsErr String :=
  let sanitized := validateSanitize email
  if validEmailFormat sanitized = false then .error .validationErr
  else if 254 < sanitized.length then .error .validationErr
  else .ok sanitized

/-- Embeds the pre-request processing of emailBulk (client.js:739-762), up
to the list of request bodies it will submit: reject an empty input, run
per-address validation only when validation is on and hashing is off, hash
the raw inputs when hashing is on, then batch unless autoBatch is off. -/
def emailBulkBodies (md5hex : String → String) (emails : List String)
    (hashEmails validate autoBatch : Bool) : Except JsErr (List (List String)) := do
  if emails.isEmpty then
    throw .validationErr
  else
    let processed ←
      if validate && !hashEmails then emails.mapM validateEmail
      else pure emails
    let processed :=
      if hashEmails then emails.map (hashEmail md5hex) else processed
    pure (if autoBatch then batchBySize processed else [processed])

/-
Derived classification helpers and concrete fixtures used by theorems.
-/

/-- Whether a fetch outcome is a retryable failure under _isRetryable after
the catch-block classification of client.js:510-529: a non-ok status
retries on 5xx, 408 or 429; a connection error becomes a retryable
NetworkError; an internal-timeout AbortError becomes a retryable
TimeoutError; an externally aborted AbortError is rethrown, never retried;
an ok response is no failure at all. -/
def failsRetryably : AttemptRes → Bool
  | .okResponse => false
  | .httpError status => decide (500 ≤ status) || status == 408 || status == 429
  | .abortCaught ext => !ext
  | .connError => true

/-- The classified error a failing fetch outcome turns into
(client.js:475-529). The okResponse case is never a failure; its value here
is arbitrary and unused. -/
def classifyFail : AttemptRes → JsErr
  | .okResponse => .apiErr 0
  | .httpError status => .apiErr status
  | .abortCaught ext =>
    .timeoutErr (if ext then "Request aborted" else "Request timeout")
  | .connError => .networkErr

/-- Fixture: every attempt fails with HTTP 500; no cancellation. -/
def script500 : Script :=
  { preAborted := false, checkAborted := fun _ => false
    fetchResult := fun _ => .httpError 500, now := 0, failTime := 50 }

/-- Fixture: every attempt fails with HTTP 403; no cancellation. -/
def script403 : Script :=
  { preAborted := false, checkAborted := fun _ => false
    fetchResult := fun _ => .httpError 403, now := 0, failTime := 50 }

/-- Fixture: attempt 0 fails with HTTP 500, later attempts succeed; no
cancellation. -/
def scriptFirst500ThenOk : Script :=
  { preAborted := false, checkAborted := fun _ => false
    fetchResult := fun a => if a == 0 then .httpError 500 else .okResponse
    now := 0, failTime := 50 }

/-- Fixture: attempt 0 fails with HTTP 500, and the external AbortSignal
triggers during the backoff before attempt 1, so every in-loop abort check
from attempt 1 on sees an aborted signal. -/
def scriptAbortInBackoff : Script :=
  { preAborted := false, checkAborted := fun a => decide (1 ≤ a)
    fetchResult := fun _ => .httpError 500, now := 0, failTime := 50 }

/-- Fixture: a breaker probing in HALF_OPEN. -/
def cbHalfOpen : CircuitBreaker :=
  { enabled := true, failureThreshold := 5, resetTimeoutMs := 1000
    state := .HALF_OPEN, failures := 0, lastFailureTime := some 0 }


/-- Fixture: every attempt succeeds; clock 10 at the breaker check. -/
def scriptOkAt10 : Script :=
  { preAborted := false, checkAborted := fun _ => false
    fetchResult := fun _ => .okResponse, now := 10, failTime := 20 }

/-- Fixture: a freshly opened breaker whose cooldown has not elapsed at
clock 0. -/
def cbOpenFresh : CircuitBreaker :=
  { enabled := true, failureThreshold := 2, resetTimeoutMs := 100
    state := .OPEN, failures := 2, lastFailureTime := some 0 }

/-- Folding a list of failure timestamps through _recordFailure, keeping
the breaker state (the event log is dropped). -/
def applyFailures (cb : CircuitBreaker) (ts : List Nat) : CircuitBreaker :=
  ts.foldl (fun c t => (recordFailure c t).1) cb

/-
Supporting lemmas about the chunking recursion.
-/

lemma chunksOfAux_nil (c fuel : Nat) : chunksOfAux c fuel ([] : List α) = [] := by
  cases fuel <;> rfl

lemma chunksOf_nil (c : Nat) : chunksOf c ([] : List α) = [] := rfl

lemma chunksOfAux_congr {c : Nat} (hc : 0 < c) :
    ∀ (fuel₁ fuel₂ : Nat) (l : List α), l.length ≤ fuel₁ → l.length ≤ fuel₂ →
      chunksOfAux c fuel₁ l = chunksOfAux c fuel₂ l := by
  intro fuel₁
  induction fuel₁ with
  | zero =>
    intro fuel₂ l h1 _
    have : l = [] := List.eq_nil_of_length_eq_zero (Nat.le_zero.mp h1)
    subst this
    rw [chunksOfAux_nil, chunksOfAux_nil]
  | succ f ih =>
    intro fuel₂ l h1 h2
    cases l with
    | nil => rw [chunksOfAux_nil, chunksOfAux_nil]
    | cons x xs =>
      cases fuel₂ with
      | zero => simp at h2
      | succ f₂ =>
        show (x :: xs).take c :: chunksOfAux c f ((x :: xs).drop c)
            = (x :: xs).take c :: chunksOfAux c f₂ ((x :: xs).drop c)
        have hd : ((x :: xs).drop c).length = (x :: xs).length - c :=
          List.length_drop c (x :: xs)
        have hlen : (x :: xs).length = xs.length + 1 := by simp
        rw [ih f₂ ((x :: xs).drop c) (by omega) (by omega)]

lemma chunksOf_cons {c : Nat} (hc : 0 < c) (l : List α) (hl : l ≠ []) :
    chunksOf c l = l.take c :: chunksOf c (l.drop c) := by
  cases l with
  | nil => exact absurd rfl hl
  | cons x xs =>
    show chunksOfAux c (xs.length + 1) (x :: xs)
        = (x :: xs).take c :: chunksOfAux c ((x :: xs).drop c).length ((x :: xs).drop c)
    show (x :: xs).take c :: chunksOfAux c xs.length ((x :: xs).drop c)
        = (x :: xs).take c :: chunksOfAux c ((x :: xs).drop c).length ((x :: xs).drop c)
    have hd : ((x :: xs).drop c).length = (x :: xs).length - c :=
      List.length_drop c (x :: xs)
    have hlen : (x :: xs).length = xs.length + 1 := by simp
    rw [chunksOfAux_congr hc xs.length ((x :: xs).drop c).length _ (by omega) (by omega)]

lemma chunksOf_ne_nil {c : Nat} (hc : 0 < c) (l : List α) (hl : l ≠ []) :
    chunksOf c l ≠ [] := by
  rw [chunksOf_cons hc l hl]
  exact List.cons_ne_nil _ _

lemma chunksOf_flatten {c : Nat} (hc : 0 < c) : ∀ l : List α, (chunksOf c l).flatten = l := by
  suffices h : ∀ (n : Nat) (l : List α), l.length = n → ((chunksOf c l).flatten = l) by
    exact fun l => h l.length l rfl
  intro n
  induction n using Nat.strong_induction_on with
  | _ n ih =>
    intro l hn
    cases l with
    | nil => rfl
    | cons x xs =>
      rw [chunksOf_cons hc _ (List.cons_ne_nil x xs), List.flatten_cons]
      have hd : ((x :: xs).drop c).length = (x :: xs).length - c :=
        List.length_drop c (x :: xs)
      have hlen : (x :: xs).length = xs.length + 1 := by simp
      rw [ih ((x :: xs).drop c).length (by omega) _ rfl]
      exact List.take_append_drop c (x :: xs)

lemma ceil_div_succ {c : Nat} (hc : 0 < c) (n : Nat) (hn : 1 ≤ n) :
    (n + c - 1) / c = (n - 1) / c + 1 := by
  rw [show n + c - 1 = (n - 1) + c by omega, Nat.add_div_right _ hc]

lemma chunksOf_length {c : Nat} (hc : 0 < c) :
    ∀ l : List α, (chunksOf c l).length = (l.length + c - 1) / c := by
  suffices h : ∀ (n : Nat) (l : List α), l.length = n → ((chunksOf c l).length = (l.length + c - 1) / c) by
    exact fun l => h l.length l rfl
  intro n
  induction n using Nat.strong_induction_on with
  | _ n ih =>
    intro l hn
    cases l with
    | nil =>
      simp only [chunksOf_nil, List.length_nil]
      rw [Nat.div_eq_of_lt (by omega)]
    | cons x xs =>
      rw [chunksOf_cons hc _ (List.cons_ne_nil x xs)]
      have hd : ((x :: xs).drop c).length = (x :: xs).length - c :=
        List.length_drop c (x :: xs)
      have hlen : (x :: xs).length = xs.length + 1 := by simp
      rw [List.length_cons, ih ((x :: xs).drop c).length (by omega) _ rfl, hd, hn]
      rcases le_or_lt n c with hcase | hcase
      · have h0 : n - c = 0 := by omega
        rw [h0, ceil_div_succ hc n (by omega)]
        rw [Nat.div_eq_of_lt (by omega), Nat.div_eq_of_lt (by omega)]
      · rw [ceil_div_succ hc (n - c) (by omega), ceil_div_succ hc n (by omega)]
        rw [show n - 1 = (n - c - 1) + c by omega, Nat.add_div_right _ hc]

lemma chunksOf_dropLast {c : Nat} (hc : 0 < c) :
    ∀ l : List α, ∀ b ∈ (chunksOf c l).dropLast, b.length = c := by
  suffices h : ∀ (n : Nat) (l : List α), l.length = n → (∀ b ∈ (chunksOf c l).dropLast, b.length = c) by
    exact fun l => h l.length l rfl
  intro n
  induction n using Nat.strong_induction_on with
  | _ n ih =>
    intro l hn
    cases l with
    | nil => intro b hb; simp [chunksOf_nil] at hb
    | cons x xs =>
      intro b hb
      rw [chunksOf_cons hc _ (List.cons_ne_nil x xs)] at hb
      have hd : ((x :: xs).drop c).length = (x :: xs).length - c :=
        List.length_drop c (x :: xs)
      have hlen : (x :: xs).length = xs.length + 1 := by simp
      by_cases hdrop : (x :: xs).drop c = []
      · rw [hdrop, chunksOf_nil] at hb
        simp at hb
      · rw [List.dropLast_cons_of_ne_nil (chunksOf_ne_nil hc _ hdrop)] at hb
        rcases List.mem_cons.mp hb with hb | hb
        · subst hb
          have hcn : c < (x :: xs).length := by
            by_contra hcon
            exact hdrop (List.eq_nil_of_length_eq_zero (by omega))
          rw [List.length_take]
          omega
        · exact ih ((x :: xs).drop c).length (by omega) _ rfl b hb

lemma chunksOf_getLast {c : Nat} (hc : 0 < c) :
    ∀ l : List α, l ≠ [] →
      ((chunksOf c l).getLast?).map List.length
        = some (if l.length % c = 0 then c else l.length % c) := by
  suffices h : ∀ (n : Nat) (l : List α), l.length = n → (l ≠ [] → Option.map List.length (chunksOf c l).getLast? = some (if l.length % c = 0 then c else l.length % c)) by
    exact fun l => h l.length l rfl
  intro n
  induction n using Nat.strong_induction_on with
  | _ n ih =>
    intro l hn
    cases l with
    | nil => intro h; exact absurd rfl h
    | cons x xs =>
      intro _
      rw [chunksOf_cons hc _ (List.cons_ne_nil x xs)]
      have hd : ((x :: xs).drop c).length = (x :: xs).length - c :=
        List.length_drop c (x :: xs)
      have hlen : (x :: xs).length = xs.length + 1 := by simp
      by_cases hdrop : (x :: xs).drop c = []
      · have hle : (x :: xs).length ≤ c := by
          have := hdrop ▸ hd
          simp only [List.length_nil] at this
          omega
        rw [hdrop, chunksOf_nil]
        simp only [List.getLast?_singleton, Option.map_some', List.length_take]
        rcases Nat.lt_or_ge (x :: xs).length c with hlt | hge
        · have hne : (x :: xs).length % c = (x :: xs).length := Nat.mod_eq_of_lt hlt
          rw [hn] at hne ⊢
          rw [if_neg (by omega), hne]
          congr 1
          omega
        · have heq : (x :: xs).length = c := by omega
          rw [heq]
          simp [Nat.mod_self]
      · cases hrest : chunksOf c ((x :: xs).drop c) with
        | nil => exact absurd hrest (chunksOf_ne_nil hc _ hdrop)
        | cons r rs =>
          rw [List.getLast?_cons_cons, ← hrest,
            ih ((x :: xs).drop c).length (by omega) _ rfl hdrop]
          have hclen : c ≤ (x :: xs).length := by
            by_contra hcon
            exact hdrop (List.eq_nil_of_length_eq_zero (by omega))
          obtain ⟨m, hm⟩ : ∃ m, (x :: xs).length = c + m :=
            ⟨(x :: xs).length - c, by omega⟩
          have hmod : ((x :: xs).drop c).length % c = (x :: xs).length % c := by
            rw [hd, hm, Nat.add_sub_cancel_left, Nat.add_mod_left]
          rw [hmod]

/-
Supporting lemmas about the email merge.
-/

lemma mergedGood_foldl :
    ∀ (results : List EmailBatchResult) (acc : List String),
      results.foldl
          (fun acc r => match r.good with
            | some g => acc ++ g
            | none => acc) acc
        = acc ++ (results.map (fun r => r.good.getD [])).flatten := by
  intro results
  induction results with
  | nil => intro acc; simp
  | cons r rs ih =>
    intro acc
    cases hg : r.good with
    | none => simp [List.foldl_cons, hg, ih]
    | some g => simp [List.foldl_cons, hg, ih]

lemma mergedGood_eq (results : List EmailBatchResult) :
    mergedGood results = (results.map (fun r => r.good.getD [])).flatten := by
  simpa using mergedGood_foldl results []

lemma lower_mem_iff (good : List String) (e : String) :
    ((good.map String.toLower).contains e.toLower = true)
      ↔ ∃ g ∈ good, g.toLower = e.toLower := by
  rw [List.contains_iff_exists_mem_beq]
  constructor
  · rintro ⟨a, ha, hbeq⟩
    obtain ⟨g, hg, rfl⟩ := List.mem_map.mp ha
    exact ⟨g, hg, (eq_of_beq hbeq).symm⟩
  · rintro ⟨g, hg, hgl⟩
    refine ⟨g.toLower, List.mem_map_of_mem _ hg, ?_⟩
    rw [hgl]
    exact beq_self_eq_true _

/-
Supporting lemmas about the bulk merge fold.
-/

lemma mergeBulk_fields {κ : Type} :
    ∀ (results : List (BulkResult κ)) (m : BulkResult κ),
      (results.foldl mergeBulkStep m).numbers
          = m.numbers + (results.map (fun r => r.numbers)).sum ∧
      (results.foldl mergeBulkStep m).count
          = m.count + (results.map (fun r => r.count)).sum ∧
      (results.foldl mergeBulkStep m).phones
          = m.phones ++ (results.map (fun r => r.phones)).flatten ∧
      (results.foldl mergeBulkStep m).supression
          = m.supression ++ (results.map (fun r => r.supression)).flatten ∧
      (results.foldl mergeBulkStep m).wireless
          = m.wireless ++ (results.map (fun r => r.wireless)).flatten ∧
      (results.foldl mergeBulkStep m).reasons
          = results.foldl (fun f r => objAssign f r.reasons) m.reasons ∧
      (results.foldl mergeBulkStep m).carrier
          = results.foldl (fun f r => objAssign f r.carrier) m.carrier := by
  intro results
  induction results with
  | nil => intro m; simp
  | cons r rs ih =>
    intro m
    obtain ⟨h1, h2, h3, h4, h5, h6, h7⟩ := ih (mergeBulkStep m r)
    refine ⟨?_, ?_, ?_, ?_, ?_, ?_, ?_⟩
    · rw [List.foldl_cons, h1]; simp [mergeBulkStep, Nat.add_assoc]
    · rw [List.foldl_cons, h2]; simp [mergeBulkStep, Nat.add_assoc]
    · rw [List.foldl_cons, h3]; simp [mergeBulkStep]
    · rw [List.foldl_cons, h4]; simp [mergeBulkStep]
    · rw [List.foldl_cons, h5]; simp [mergeBulkStep]
    · simp only [List.foldl_cons]; rw [h6]; simp [mergeBulkStep]
    · simp only [List.foldl_cons]; rw [h7]; simp [mergeBulkStep]

lemma foldl_objAssign_findSome {α v : Type} (f : α → String → Option v) :
    ∀ (l : List α) (m : String → Option v) (k : String),
      (l.foldl (fun acc a => objAssign acc (f a)) m) k
        = ((l.reverse.findSome? (fun a => f a k)).rec (m k) (fun x => some x)) := by
  intro l
  induction l with
  | nil => intro m k; simp
  | cons a l ih =>
    intro m k
    rw [List.foldl_cons, ih (objAssign m (f a)) k, List.reverse_cons,
      List.findSome?_append]
    cases hl : l.reverse.findSome? (fun a => f a k) with
    | some x => simp [Option.or]
    | none =>
      simp only [Option.or]
      cases hfa : f a k with
      | some x => simp [List.findSome?, hfa, objAssign]
      | none => simp [List.findSome?, hfa, objAssign]

/-
Claim theorems for the batching engine and the mergers.
-/

/-- C7: for every input sequence of length N and the fixed chunk size
C = 5000, _batchBySize returns exactly ceil(N/C) batches; every batch
except possibly the last has length C, the last has length N mod C (or C
when N is an exact multiple of C); and the concatenation of the batches in
order equals the original sequence exactly, with no reordering. -/
theorem batching_partition {α : Type} (l : List α) :
    (batchBySize l).flatten = l ∧
    (batchBySize l).length = (l.length + 5000 - 1) / 5000 ∧
    (∀ b ∈ (batchBySize l).dropLast, b.length = 5000) ∧
    (l ≠ [] →
      ((batchBySize l).getLast?).map List.length
        = some (if l.length % 5000 = 0 then 5000 else l.length % 5000)) := by
  have hc : (0 : Nat) < 5000 := by norm_num
  exact ⟨chunksOf_flatten hc l, chunksOf_length hc l, chunksOf_dropLast hc l,
    chunksOf_getLast hc l⟩

/-- Witness for C7: the hypothesis of the last-batch clause discharged at
the concrete input with three elements. -/
theorem batching_partition_witness :
    (["a", "b", "c"] : List String) ≠ [] ∧
    ((batchBySize (["a", "b", "c"] : List String)).getLast?).map List.length
      = some (if (["a", "b", "c"] : List String).length % 5000 = 0 then 5000
          else (["a", "b", "c"] : List String).length % 5000) :=
  ⟨by decide, (batching_partition (["a", "b", "c"] : List String)).2.2.2 (by decide)⟩

/-- C6: for every submitted email list S and every sequence of per-batch
results whose concatenated good lists form G, _mergeEmailResults returns G
itself as merged good (batch order, no deduplication) and as merged bad
exactly the members of S with no case-insensitive match in G, in the order
of S; no member of bad matches a member of good case-insensitively. The
single-batch helper _computeBadEmails agrees with the merge of one
result. -/
theorem emailMerge_derivation (results : List EmailBatchResult)
    (submitted : List String) :
    (mergeEmailResults results submitted).good
        = (results.map (fun r => r.good.getD [])).flatten ∧
    (∀ e, e ∈ (mergeEmailResults results submitted).bad ↔
        e ∈ submitted ∧
          ∀ g ∈ (mergeEmailResults results submitted).good,
            g.toLower ≠ e.toLower) ∧
    (mergeEmailResults results submitted).bad.Sublist submitted ∧
    (∀ b ∈ (mergeEmailResults results submitted).bad,
      ∀ g ∈ (mergeEmailResults results submitted).good, g.toLower ≠ b.toLower) ∧
    (∀ r, computeBadEmails r submitted = mergeEmailResults [r] submitted) := by
  have hgood : (mergeEmailResults results submitted).good = mergedGood results := rfl
  have hbad : (mergeEmailResults results submitted).bad
      = submitted.filter
          (fun e => !((mergedGood results).map String.toLower).contains e.toLower) :=
    rfl
  have hmem : ∀ e, e ∈ (mergeEmailResults results submitted).bad ↔
      e ∈ submitted ∧
        ∀ g ∈ (mergeEmailResults results submitted).good,
          g.toLower ≠ e.toLower := by
    intro e
    rw [hbad, List.mem_filter, hgood]
    constructor
    · rintro ⟨hs, hp⟩
      refine ⟨hs, ?_⟩
      intro g hg hgl
      have : ((mergedGood results).map String.toLower).contains e.toLower = true :=
        (lower_mem_iff _ e).mpr ⟨g, hg, hgl⟩
      rw [this] at hp
      exact absurd hp (by decide)
    · rintro ⟨hs, hall⟩
      refine ⟨hs, ?_⟩
      cases hcon : ((mergedGood results).map String.toLower).contains e.toLower with
      | false => rfl
      | true =>
        obtain ⟨g, hg, hgl⟩ := (lower_mem_iff _ e).mp hcon
        exact absurd hgl (hall g hg)
  refine ⟨hgood.trans (mergedGood_eq results), hmem, ?_, ?_, ?_⟩
  · rw [hbad]
    exact List.filter_sublist submitted
  · intro b hb g hg hgl
    exact ((hmem b).mp hb).2 g hg hgl
  · intro r
    cases hg : r.good <;>
      simp [computeBadEmails, mergeEmailResults, mergedGood, hg]

/-- C8: for every sequence of per-batch bulk-lookup results,
_mergeBulkResults produces scalar counters that are the sums of the
per-batch counters, array fields that are the concatenations of the
per-batch arrays in batch order, and mapping fields that are right-biased
unions: a key takes the value from the latest batch that carries it. -/
theorem bulkMerge_additivity {κ : Type} (results : List (BulkResult κ)) :
    (mergeBulkResults results).numbers
        = (results.map (fun r => r.numbers)).sum ∧
    (mergeBulkResults results).count = (results.map (fun r => r.count)).sum ∧
    (mergeBulkResults results).phones
        = (results.map (fun r => r.phones)).flatten ∧
    (mergeBulkResults results).supression
        = (results.map (fun r => r.supression)).flatten ∧
    (mergeBulkResults results).wireless
        = (results.map (fun r => r.wireless)).flatten ∧
    (∀ k, (mergeBulkResults results).reasons k
        = results.reverse.findSome? (fun r => r.reasons k)) ∧
    (∀ k, (mergeBulkResults results).carrier k
        = results.reverse.findSome? (fun r => r.carrier k)) := by
  obtain ⟨h1, h2, h3, h4, h5, h6, h7⟩ := mergeBulk_fields results (emptyBulk κ)
  rw [mergeBulkResults]
  refine ⟨by simpa [emptyBulk] using h1, by simpa [emptyBulk] using h2,
    by simpa [emptyBulk] using h3, by simpa [emptyBulk] using h4,
    by simpa [emptyBulk] using h5, ?_, ?_⟩
  · intro k
    rw [h6, foldl_objAssign_findSome (fun r : BulkResult κ => r.reasons)]
    cases results.reverse.findSome? (fun r : BulkResult κ => r.reasons k) <;>
      simp [emptyBulk]
  · intro k
    rw [h7, foldl_objAssign_findSome (fun r : BulkResult κ => r.carrier)]
    cases results.reverse.findSome? (fun r : BulkResult κ => r.carrier k) <;>
      simp [emptyBulk]

/-
Supporting lemmas about the breaker helpers' event logs: the three breaker
functions only ever log state changes.
-/

lemma recordFailure_events (cb : CircuitBreaker) (t : Nat) :
    ∀ e ∈ (recordFailure cb t).2, isStChEv e = true := by
  intro e he
  obtain ⟨en, th, rt, st, f, lt⟩ := cb
  cases en <;> cases st <;> by_cases hth : th ≤ f + 1 <;>
    simp_all [recordFailure, changeCircuitState, isStChEv]

lemma recordSuccess_events (cb : CircuitBreaker) :
    ∀ e ∈ (recordSuccess cb).2, isStChEv e = true := by
  intro e he
  obtain ⟨en, th, rt, st, f, lt⟩ := cb
  cases en <;> cases st <;>
    simp_all [recordSuccess, changeCircuitState, isStChEv]

lemma checkCB_events (cb : CircuitBreaker) (now : Nat) :
    ∀ e ∈ (checkCircuitBreaker cb now).2.1, isStChEv e = true := by
  intro e he
  obtain ⟨en, th, rt, st, f, lt⟩ := cb
  cases en
  case false => simp_all [checkCircuitBreaker]
  case true =>
    cases lt
    case none =>
      cases st <;> simp_all [checkCircuitBreaker, changeCircuitState, isStChEv]
    case some t =>
      cases st
      case CLOSED =>
        simp_all [checkCircuitBreaker, changeCircuitState, isStChEv]
      case HALF_OPEN =>
        simp_all [checkCircuitBreaker, changeCircuitState, isStChEv]
      case OPEN =>
        by_cases hrt : rt ≤ now - t <;>
          simp_all [checkCircuitBreaker, changeCircuitState, isStChEv]

lemma countP_zero_of_stch {l : List Event} (h : ∀ e ∈ l, isStChEv e = true)
    {p : Event → Bool} (hp : ∀ a b, p (.stateChange a b) = false) :
    l.countP p = 0 := by
  rw [List.countP_eq_zero]
  intro e he
  have hst := h e he
  cases e <;> simp_all [isStChEv, hp]

lemma recordFailure_countP_check (cb : CircuitBreaker) (t : Nat) :
    ((recordFailure cb t).2).countP isCheckEv = 0 :=
  countP_zero_of_stch (recordFailure_events cb t) (fun _ _ => rfl)

lemma recordFailure_countP_fetch (cb : CircuitBreaker) (t : Nat) :
    ((recordFailure cb t).2).countP isFetchEv = 0 :=
  countP_zero_of_stch (recordFailure_events cb t) (fun _ _ => rfl)

lemma recordSuccess_countP_check (cb : CircuitBreaker) :
    ((recordSuccess cb).2).countP isCheckEv = 0 :=
  countP_zero_of_stch (recordSuccess_events cb) (fun _ _ => rfl)

lemma checkCB_countP_check (cb : CircuitBreaker) (now : Nat) :
    ((checkCircuitBreaker cb now).2.1).countP isCheckEv = 0 :=
  countP_zero_of_stch (checkCB_events cb now) (fun _ _ => rfl)

lemma checkCB_countP_fetch (cb : CircuitBreaker) (now : Nat) :
    ((checkCircuitBreaker cb now).2.1).countP isFetchEv = 0 :=
  countP_zero_of_stch (checkCB_events cb now) (fun _ _ => rfl)

lemma pre_countP_check (attempt : Nat) :
    ((if 0 < attempt then [Event.sleep] else []) : List Event).countP isCheckEv
      = 0 := by
  split <;> rfl

lemma pre_countP_fetch (attempt : Nat) :
    ((if 0 < attempt then [Event.sleep] else []) : List Event).countP isFetchEv
      = 0 := by
  split <;> rfl

lemma pre_countP_stch (attempt : Nat) :
    ((if 0 < attempt then [Event.sleep] else []) : List Event).countP isStChEv
      = 0 := by
  split <;> rfl

/-
Claim theorems about _request.
-/

/-- C9: with dryRun set, _request returns the canned mock immediately,
leaves the circuit breaker untouched (for every breaker state, so the
breaker is neither read nor mutated), performs no network call, no breaker
consultation and no hook invocation. -/
theorem dryRun_frame (retries : Nat) (cb : CircuitBreaker) (s : Script) :
    (request true retries cb s).outcome = .ok .mock ∧
    (request true retries cb s).cb = cb ∧
    (request true retries cb s).trace = [] ∧
    fetchCount (request true retries cb s) = 0 ∧
    checkCount (request true retries cb s) = 0 ∧
    hookReqCount (request true retries cb s) = 0 ∧
    hookRespCount (request true retries cb s) = 0 :=
  ⟨rfl, rfl, rfl, rfl, rfl, rfl, rfl⟩

/-- C1 (code-bug evidence): retries = 2, attempt 0 fails with HTTP 500,
and the external signal triggers during the backoff before attempt 1. The
in-loop abort check throws a TimeoutError that the same iteration's catch
classifies as retryable, so _request runs one more retry iteration with
its backoff sleep (two sleeps in total, both after the only fetch), then
reports a failure to the circuit breaker (failure count rises from 0 to 1)
before finally throwing the cancellation error, contradicting the
documented behaviour that aborted requests are not retried and are not
counted as circuit failures. -/
theorem cancelDuringBackoff_divergence :
    (request false 2 (freshCB 5 1000) scriptAbortInBackoff).outcome
        = .error (.timeoutErr "Request aborted") ∧
    (freshCB 5 1000).failures = 0 ∧
    (request false 2 (freshCB 5 1000) scriptAbortInBackoff).cb.failures = 1 ∧
    sleepCount (request false 2 (freshCB 5 1000) scriptAbortInBackoff) = 2 ∧
    fetchCount (request false 2 (freshCB 5 1000) scriptAbortInBackoff) = 1 ∧
    recFailCount (request false 2 (freshCB 5 1000) scriptAbortInBackoff) = 1 :=
  ⟨rfl, rfl, rfl, rfl, rfl, rfl⟩

/-- C4 (counterexample): a _request with retries = 1 whose first attempt
fails retryably and whose second succeeds performs two network attempts
but consults the circuit breaker exactly once, refuting the claim that the
breaker is consulted before every attempt rather than only once before the
first. -/
theorem circuitCheck_perAttempt_cex :
    checkCount (request false 1 (freshCB 5 1000) scriptFirst500ThenOk) = 1 ∧
    fetchCount (request false 1 (freshCB 5 1000) scriptFirst500ThenOk) = 2 := by
  decide

/-- C5 (counterexample): starting from a HALF_OPEN breaker with retries =
1, a retryable first failure followed by a success produces two fetch
events before the only state change: the full trace shows a second network
attempt while the breaker is still HALF_OPEN, refuting the single-probe
claim. -/
theorem halfOpen_single_probe_cex :
    (request false 1 cbHalfOpen scriptFirst500ThenOk).trace
      = [.cbCheck, .hookRequest, .fetch, .sleep, .hookRequest, .fetch,
         .hookResponse, .recordSuccessEv,
         .stateChange .HALF_OPEN .CLOSED] := rfl

lemma requestLoop_allFail (s : Script) (retries : Nat)
    (hchk : ∀ a, s.checkAborted a = false)
    (hfail : ∀ a, failsRetryably (s.fetchResult a) = true) :
    ∀ (fuel attempt : Nat) (cb : CircuitBreaker) (le : Option JsErr),
      attempt + fuel = retries + 1 → 0 < fuel →
      (requestLoop s retries attempt fuel cb le).outcome
          = .error (classifyFail (s.fetchResult retries)) ∧
      (requestLoop s retries attempt fuel cb le).cb
          = (recordFailure cb s.failTime).1 ∧
      ∃ mid,
        (requestLoop s retries attempt fuel cb le).trace
            = mid ++ .recordFailureEv :: (recordFailure cb s.failTime).2 ∧
        mid.countP isFetchEv = fuel ∧
        mid.countP isStChEv = 0 ∧
        mid.countP isCheckEv = 0 := by
  intro fuel
  induction fuel with
  | zero =>
    intro attempt cb le hsum hpos
    exact absurd hpos (by omega)
  | succ f ih =>
    intro attempt cb le hsum _
    have hca := hchk attempt
    simp only [requestLoop, hca, Bool.false_eq_true, if_false]
    rcases hfr : s.fetchResult attempt with _ | st | ext | _
    · have h := hfail attempt
      rw [hfr] at h
      simp [failsRetryably] at h
    · have hr : isRetryable (JsErr.apiErr st) = true := by
        have h := hfail attempt
        rw [hfr] at h
        exact h
      by_cases hlt : attempt < retries
      · simp only [hfr, hr, Bool.true_and, hlt, decide_True, if_true]
        obtain ⟨ho, hcb, mid, htr, hfc, hsc, hcc⟩ :=
          ih (attempt + 1) cb (some (JsErr.apiErr st)) (by omega) (by omega)
        refine ⟨ho, hcb,
          (if 0 < attempt then [Event.sleep] else [])
            ++ [Event.hookRequest, Event.fetch] ++ mid, ?_, ?_, ?_, ?_⟩
        · rw [htr]
          simp [List.append_assoc]
        · simp [List.countP_append, pre_countP_fetch, hfc, isFetchEv]
        · simp [List.countP_append, pre_countP_stch, hsc, isStChEv]
        · simp [List.countP_append, pre_countP_check, hcc, isCheckEv]
      · have heq : retries = attempt := by omega
        have hf0 : f = 0 := by omega
        subst heq
        subst hf0
        simp only [hfr, hr, Bool.true_and, hlt, decide_False,
          Bool.false_eq_true, if_false]
        refine ⟨?_, ?_,
          (if 0 < retries then [Event.sleep] else [])
            ++ [Event.hookRequest, Event.fetch], ?_, ?_, ?_, ?_⟩
        · trivial
        · trivial
        · simp [List.append_assoc]
        · simp [List.countP_append, pre_countP_fetch, isFetchEv]
        · simp [List.countP_append, pre_countP_stch, isStChEv]
        · simp [List.countP_append, pre_countP_check, isCheckEv]
    · have hext : ext = false := by
        have h := hfail attempt
        rw [hfr] at h
        simpa [failsRetryably] using h
      subst hext
      by_cases hlt : attempt < retries
      · simp only [hfr, Bool.false_eq_true, if_false, isRetryable,
          Bool.true_and, hlt, decide_True, if_true]
        obtain ⟨ho, hcb, mid, htr, hfc, hsc, hcc⟩ :=
          ih (attempt + 1) cb (some (JsErr.timeoutErr "Request timeout"))
            (by omega) (by omega)
        refine ⟨ho, hcb,
          (if 0 < attempt then [Event.sleep] else [])
            ++ [Event.hookRequest, Event.fetch] ++ mid, ?_, ?_, ?_, ?_⟩
        · rw [htr]
          simp [List.append_assoc]
        · simp [List.countP_append, pre_countP_fetch, hfc, isFetchEv]
        · simp [List.countP_append, pre_countP_stch, hsc, isStChEv]
        · simp [List.countP_append, pre_countP_check, hcc, isCheckEv]
      · have heq : retries = attempt := by omega
        have hf0 : f = 0 := by omega
        subst heq
        subst hf0
        simp only [hfr, Bool.false_eq_true, isRetryable, Bool.true_and,
          hlt, decide_False, if_false]
        refine ⟨?_, ?_,
          (if 0 < retries then [Event.sleep] else [])
            ++ [Event.hookRequest, Event.fetch], ?_, ?_, ?_, ?_⟩
        · trivial
        · trivial
        · simp [List.append_assoc]
        · simp [List.countP_append, pre_countP_fetch, isFetchEv]
        · simp [List.countP_append, pre_countP_stch, isStChEv]
        · simp [List.countP_append, pre_countP_check, isCheckEv]
    · by_cases hlt : attempt < retries
      · simp only [hfr, isRetryable, Bool.true_and, hlt, decide_True, if_true]
        obtain ⟨ho, hcb, mid, htr, hfc, hsc, hcc⟩ :=
          ih (attempt + 1) cb (some JsErr.networkErr) (by omega) (by omega)
        refine ⟨ho, hcb,
          (if 0 < attempt then [Event.sleep] else [])
            ++ [Event.hookRequest, Event.fetch] ++ mid, ?_, ?_, ?_, ?_⟩
        · rw [htr]
          simp [List.append_assoc]
        · simp [List.countP_append, pre_countP_fetch, hfc, isFetchEv]
        · simp [List.countP_append, pre_countP_stch, hsc, isStChEv]
        · simp [List.countP_append, pre_countP_check, hcc, isCheckEv]
      · have heq : retries = attempt := by omega
        have hf0 : f = 0 := by omega
        subst heq
        subst hf0
        simp only [hfr, isRetryable, Bool.true_and, hlt, decide_False,
          Bool.false_eq_true, if_false]
        refine ⟨?_, ?_,
          (if 0 < retries then [Event.sleep] else [])
            ++ [Event.hookRequest, Event.fetch], ?_, ?_, ?_, ?_⟩
        · trivial
        · trivial
        · simp [List.append_assoc]
        · simp [List.countP_append, pre_countP_fetch, isFetchEv]
        · simp [List.countP_append, pre_countP_stch, isStChEv]
        · simp [List.countP_append, pre_countP_check, isCheckEv]

lemma requestLoop_no_check (s : Script) (retries : Nat) :
    ∀ (fuel attempt : Nat) (cb : CircuitBreaker) (le : Option JsErr),
      ((requestLoop s retries attempt fuel cb le).trace).countP isCheckEv = 0 := by
  intro fuel
  induction fuel with
  | zero =>
    intro attempt cb le
    simp only [requestLoop]
    simp [List.countP_cons, isCheckEv, recordFailure_countP_check]
  | succ f ih =>
    intro attempt cb le
    simp only [requestLoop]
    split
    · split
      · simp [List.countP_append, pre_countP_check, ih, isCheckEv]
      · simp [List.countP_append, List.countP_cons, pre_countP_check,
          recordFailure_countP_check, isCheckEv]
    · split
      · simp [List.countP_append, pre_countP_check, recordSuccess_countP_check,
          isCheckEv]
      · split
        · simp [List.countP_append, pre_countP_check, ih, isCheckEv]
        · simp [List.countP_append, pre_countP_check,
            recordFailure_countP_check, isCheckEv]
      · split
        · simp [List.countP_append, pre_countP_check, isCheckEv]
        · split
          · simp [List.countP_append, pre_countP_check, ih, isCheckEv]
          · simp [List.countP_append, pre_countP_check,
              recordFailure_countP_check, isCheckEv]
      · split
        · simp [List.countP_append, pre_countP_check, ih, isCheckEv]
        · simp [List.countP_append, pre_countP_check,
            recordFailure_countP_check, isCheckEv]

lemma recordSuccess_countP_fetch (cb : CircuitBreaker) :
    ((recordSuccess cb).2).countP isFetchEv = 0 :=
  countP_zero_of_stch (recordSuccess_events cb) (fun _ _ => rfl)

lemma recordFailure_halfOpen (cb : CircuitBreaker) (t : Nat)
    (hen : cb.enabled = true) (hst : cb.state = .HALF_OPEN) :
    (recordFailure cb t).1.state = .OPEN ∧
    (recordFailure cb t).2 = [.stateChange .HALF_OPEN .OPEN] := by
  simp [recordFailure, changeCircuitState, hen, hst]

lemma recordSuccess_halfOpen (cb : CircuitBreaker)
    (hen : cb.enabled = true) (hst : cb.state = .HALF_OPEN) :
    (recordSuccess cb).1.state = .CLOSED ∧
    (recordSuccess cb).1.failures = 0 := by
  simp [recordSuccess, changeCircuitState, hen, hst]

lemma recordFailure_frame (cb : CircuitBreaker) (t : Nat) :
    (recordFailure cb t).1.enabled = cb.enabled ∧
    (recordFailure cb t).1.failureThreshold = cb.failureThreshold ∧
    (recordFailure cb t).1.resetTimeoutMs = cb.resetTimeoutMs := by
  obtain ⟨en, th, rt, st, f, lt⟩ := cb
  cases en <;> cases st <;> by_cases hth : th ≤ f + 1 <;>
    simp [recordFailure, changeCircuitState, hth]

lemma recordFailure_closed_small (cb : CircuitBreaker) (t : Nat)
    (hen : cb.enabled = true) (hst : cb.state = .CLOSED)
    (hsm : cb.failures + 1 < cb.failureThreshold) :
    (recordFailure cb t).1.state = .CLOSED ∧
    (recordFailure cb t).1.failures = cb.failures + 1 := by
  have hnot : ¬(cb.failureThreshold ≤ cb.failures + 1) := by omega
  simp [recordFailure, changeCircuitState, hen, hst, hnot]

lemma recordFailure_closed_hit (cb : CircuitBreaker) (t : Nat)
    (hen : cb.enabled = true) (hst : cb.state = .CLOSED)
    (hge : cb.failureThreshold ≤ cb.failures + 1) :
    (recordFailure cb t).1.state = .OPEN := by
  simp [recordFailure, changeCircuitState, hen, hst, hge]

lemma recordFailure_open_any (cb : CircuitBreaker) (t : Nat)
    (hst : cb.state = .OPEN) : (recordFailure cb t).1.state = .OPEN := by
  obtain ⟨en, th, rt, st, f, lt⟩ := cb
  cases en <;> simp_all [recordFailure, changeCircuitState]

lemma applyFailures_open :
    ∀ (ts : List Nat) (cb : CircuitBreaker), cb.state = .OPEN →
      (applyFailures cb ts).state = .OPEN := by
  intro ts
  induction ts with
  | nil => intro cb hst; exact hst
  | cons t ts ih =>
    intro cb hst
    exact ih _ (recordFailure_open_any cb t hst)

lemma applyFailures_closed_small :
    ∀ (ts : List Nat) (cb : CircuitBreaker), cb.enabled = true →
      cb.state = .CLOSED → cb.failures + ts.length < cb.failureThreshold →
      (applyFailures cb ts).state = .CLOSED ∧
      (applyFailures cb ts).failures = cb.failures + ts.length := by
  intro ts
  induction ts with
  | nil => intro cb _ hst _; exact ⟨hst, by simp [applyFailures]⟩
  | cons t ts ih =>
    intro cb hen hst hsm
    obtain ⟨hfe, hfth, _⟩ := recordFailure_frame cb t
    have hstep := recordFailure_closed_small cb t hen hst
      (by simp at hsm; omega)
    have := ih (recordFailure cb t).1 (by rw [hfe, hen]) hstep.1
      (by rw [hstep.2, hfth]; simp at hsm ⊢; omega)
    refine ⟨this.1, ?_⟩
    rw [show applyFailures cb (t :: ts) = applyFailures (recordFailure cb t).1 ts
      from rfl, this.2, hstep.2]
    simp
    omega

lemma applyFailures_reach_open :
    ∀ (ts : List Nat) (cb : CircuitBreaker), cb.enabled = true →
      cb.state = .CLOSED → 0 < ts.length →
      cb.failureThreshold ≤ cb.failures + ts.length →
      (applyFailures cb ts).state = .OPEN := by
  intro ts
  induction ts with
  | nil => intro cb _ _ h _; simp at h
  | cons t ts ih =>
    intro cb hen hst _ hge
    by_cases hhit : cb.failureThreshold ≤ cb.failures + 1
    · exact applyFailures_open ts _ (recordFailure_closed_hit cb t hen hst hhit)
    · obtain ⟨hfe, hfth, _⟩ := recordFailure_frame cb t
      have hstep := recordFailure_closed_small cb t hen hst (by omega)
      exact ih (recordFailure cb t).1 (by rw [hfe, hen]) hstep.1
        (by simp at hge; omega)
        (by rw [hstep.2, hfth]; simp at hge; omega)

/-- C3: for every retry budget r, when the breaker admits the call and
every attempt fails retryably (5xx, 408, 429, a connection error, or an
internal timeout), _request performs exactly r + 1 network attempts and
throws the classification of the final failure; a non-retryable 4xx on the
first attempt (any 4xx other than 408 and 429) yields exactly one attempt
and throws the classified error, for every retry budget. -/
theorem retry_attempt_counts (retries : Nat) (cb : CircuitBreaker) (s : Script)
    (hpre : s.preAborted = false)
    (hallow : (checkCircuitBreaker cb s.now).2.2 = none) :
    ((∀ a, s.checkAborted a = false) →
      (∀ a, failsRetryably (s.fetchResult a) = true) →
      fetchCount (request false retries cb s) = retries + 1 ∧
      (request false retries cb s).outcome
          = .error (classifyFail (s.fetchResult retries))) ∧
    (s.checkAborted 0 = false → ∀ st, s.fetchResult 0 = .httpError st →
      400 ≤ st → st < 500 → st ≠ 408 → st ≠ 429 →
      fetchCount (request false retries cb s) = 1 ∧
      (request false retries cb s).outcome = .error (.apiErr st)) := by
  constructor
  · intro hchk hfail
    obtain ⟨ho, hcb, mid, htr, hfc, hsc, hcc⟩ :=
      requestLoop_allFail s retries hchk hfail (retries + 1) 0
        (checkCircuitBreaker cb s.now).1 none (by omega) (by omega)
    constructor
    · unfold fetchCount
      simp only [request, Bool.false_eq_true, if_false, hallow, hpre]
      rw [htr]
      simp [List.countP_append, List.countP_cons, isFetchEv,
        checkCB_countP_fetch, hfc, recordFailure_countP_fetch]
    · simp only [request, Bool.false_eq_true, if_false, hallow, hpre]
      exact ho
  · intro hchk0 st hfr h4a h4b h48 h429
    have hnr : (decide (500 ≤ st) || st == 408 || st == 429) = false := by
      simp
      omega
    constructor
    · unfold fetchCount
      simp only [request, Bool.false_eq_true, if_false, hallow, hpre,
        requestLoop, hchk0, hfr, isRetryable, hnr, Bool.false_and]
      simp [List.countP_append, List.countP_cons, isFetchEv,
        checkCB_countP_fetch, recordFailure_countP_fetch]
    · simp only [request, Bool.false_eq_true, if_false, hallow, hpre,
        requestLoop, hchk0, hfr, isRetryable, hnr, Bool.false_and]


/-- Witness for the C3 theorem: budget 2 against all-500 gives 3 attempts;
budget 2 against 403 gives 1 attempt. -/
theorem retry_attempt_counts_witness :
    fetchCount (request false 2 disabledCB script500) = 3 ∧
    (request false 2 disabledCB script500).outcome
      = .error (classifyFail (script500.fetchResult 2)) ∧
    fetchCount (request false 2 disabledCB script403) = 1 ∧
    (request false 2 disabledCB script403).outcome = .error (.apiErr 403) := by
  have h1 := retry_attempt_counts 2 disabledCB script500 rfl rfl
  have h2 := retry_attempt_counts 2 disabledCB script403 rfl rfl
  exact ⟨(h1.1 (fun a => rfl) (fun a => rfl)).1,
    (h1.1 (fun a => rfl) (fun a => rfl)).2,
    (h2.2 rfl 403 rfl (by decide) (by decide) (by decide) (by decide)).1,
    (h2.2 rfl 403 rfl (by decide) (by decide) (by decide) (by decide)).2⟩

/-- C4 (amended): the circuit breaker is consulted exactly once per
_request invocation, before the first attempt (not before every attempt);
when that single consultation rejects, the whole invocation aborts
immediately with the circuit-open error and zero network attempts, so the
circuit-open error is never retried. -/
theorem circuitCheck_once_per_request (retries : Nat) (cb : CircuitBreaker)
    (s : Script) :
    checkCount (request false retries cb s) = 1 ∧
    (∀ e, (checkCircuitBreaker cb s.now).2.2 = some e →
      (request false retries cb s).outcome = .error e ∧
      fetchCount (request false retries cb s) = 0) := by
  constructor
  · unfold checkCount
    simp only [request, Bool.false_eq_true, if_false]
    cases hc : (checkCircuitBreaker cb s.now).2.2 with
    | some e =>
      simp [List.countP_cons, isCheckEv, checkCB_countP_check]
    | none =>
      cases hp : s.preAborted with
      | true => simp [List.countP_cons, isCheckEv, checkCB_countP_check]
      | false =>
        simp [List.countP_cons, List.countP_append, isCheckEv,
          checkCB_countP_check, requestLoop_no_check]
  · intro e he
    refine ⟨?_, ?_⟩
    · simp only [request, Bool.false_eq_true, if_false, he]
    · simp only [fetchCount, request, Bool.false_eq_true, if_false, he]
      simp [List.countP_cons, isFetchEv, checkCB_countP_fetch]

/-- Witness for the amended C4 theorem at a concrete OPEN breaker. -/
theorem circuitCheck_once_per_request_witness :
    checkCount (request false 3 cbOpenFresh scriptOkAt10) = 1 ∧
    (request false 3 cbOpenFresh scriptOkAt10).outcome = .error .circuitErr ∧
    fetchCount (request false 3 cbOpenFresh scriptOkAt10) = 0 := by
  have h := circuitCheck_once_per_request 3 cbOpenFresh scriptOkAt10
  exact ⟨h.1, (h.2 .circuitErr rfl).1, (h.2 .circuitErr rfl).2⟩

/-- C5 (amended): from a HALF_OPEN breaker, the single admitted _request
invocation serves as the probe, but within it up to maxRetries + 1 network
attempts may run before the breaker transitions: under all-retryable
failures all retries + 1 fetches happen strictly before the
recordFailure that moves the breaker (to OPEN), and a first-attempt
success moves it to CLOSED with the failure counter reset after exactly
one fetch. -/
theorem halfOpen_probe_window (retries : Nat) (cb : CircuitBreaker) (s : Script)
    (hen : cb.enabled = true) (hst : cb.state = .HALF_OPEN)
    (hpre : s.preAborted = false)
    (hchk : ∀ a, s.checkAborted a = false) :
    ((∀ a, failsRetryably (s.fetchResult a) = true) →
      fetchCount (request false retries cb s) = retries + 1 ∧
      (request false retries cb s).cb.state = .OPEN ∧
      ∃ mid post,
        (request false retries cb s).trace = mid ++ .recordFailureEv :: post ∧
        mid.countP isFetchEv = retries + 1 ∧
        mid.countP isStChEv = 0) ∧
    (s.fetchResult 0 = .okResponse →
      fetchCount (request false retries cb s) = 1 ∧
      (request false retries cb s).cb.state = .CLOSED ∧
      (request false retries cb s).cb.failures = 0) := by
  have hchkeq : checkCircuitBreaker cb s.now = (cb, [], none) := by
    simp [checkCircuitBreaker, hen, hst]
  constructor
  · intro hfail
    obtain ⟨ho, hcb, mid, htr, hfc, hsc, hcc⟩ :=
      requestLoop_allFail s retries hchk hfail (retries + 1) 0 cb none
        (by omega) (by omega)
    refine ⟨?_, ?_, ?_⟩
    · unfold fetchCount
      simp only [request, Bool.false_eq_true, if_false, hchkeq, hpre]
      rw [htr]
      simp [List.countP_append, List.countP_cons, isFetchEv, hfc,
        recordFailure_countP_fetch]
    · simp only [request, Bool.false_eq_true, if_false, hchkeq, hpre]
      rw [hcb]
      exact (recordFailure_halfOpen cb s.failTime hen hst).1
    · refine ⟨.cbCheck :: mid, (recordFailure cb s.failTime).2, ?_, ?_, ?_⟩
      · simp only [request, Bool.false_eq_true, if_false, hchkeq, hpre]
        rw [htr]
        simp
      · simp [List.countP_cons, isFetchEv, hfc]
      · simp [List.countP_cons, isStChEv, hsc]
  · intro hok
    have h0 := hchk 0
    simp only [request, Bool.false_eq_true, if_false, hchkeq, hpre,
      requestLoop, h0, hok]
    refine ⟨?_, ?_, ?_⟩
    · simp [fetchCount, List.countP_cons, List.countP_append, isFetchEv,
        recordSuccess_countP_fetch]
    · exact (recordSuccess_halfOpen cb hen hst).1
    · exact (recordSuccess_halfOpen cb hen hst).2

/-- Witness for the amended C5 theorem at a concrete HALF_OPEN breaker. -/
theorem halfOpen_probe_window_witness :
    fetchCount (request false 2 cbHalfOpen script500) = 3 ∧
    (request false 2 cbHalfOpen script500).cb.state = .OPEN ∧
    fetchCount (request false 2 cbHalfOpen scriptOkAt10) = 1 ∧
    (request false 2 cbHalfOpen scriptOkAt10).cb.state = .CLOSED := by
  have h1 := halfOpen_probe_window 2 cbHalfOpen script500 rfl rfl rfl
    (fun a => rfl)
  have h2 := halfOpen_probe_window 2 cbHalfOpen scriptOkAt10 rfl rfl rfl
    (fun a => rfl)
  exact ⟨(h1.1 (fun a => rfl)).1, (h1.1 (fun a => rfl)).2.1,
    (h2.2 rfl).1, (h2.2 rfl).2.1⟩

/-- C2: the circuit breaker state machine: from a fresh CLOSED breaker,
exactly failureThreshold consecutive recorded failures reach OPEN (fewer
leave it CLOSED with the counter equal to the number of failures); while
OPEN within the cooldown, _request throws the circuit-open error with zero
network calls; once the cooldown has elapsed, the next consultation moves
the breaker to HALF_OPEN and admits the attempt; a HALF_OPEN success moves
to CLOSED and resets the counter to 0; a HALF_OPEN failure moves back to
OPEN. -/
theorem circuitBreaker_transitions (th rt : Nat) (hth : 0 < th) :
    (∀ ts : List Nat, ts.length = th →
      (applyFailures (freshCB th rt) ts).state = .OPEN) ∧
    (∀ ts : List Nat, ts.length < th →
      (applyFailures (freshCB th rt) ts).state = .CLOSED ∧
      (applyFailures (freshCB th rt) ts).failures = ts.length) ∧
    (∀ (cb : CircuitBreaker) (s : Script) (retries t : Nat),
      cb.enabled = true → cb.state = .OPEN → cb.lastFailureTime = some t →
      s.now - t < cb.resetTimeoutMs →
      (request false retries cb s).outcome = .error .circuitErr ∧
      fetchCount (request false retries cb s) = 0) ∧
    (∀ (cb : CircuitBreaker) (now t : Nat),
      cb.enabled = true → cb.state = .OPEN → cb.lastFailureTime = some t →
      cb.resetTimeoutMs ≤ now - t →
      (checkCircuitBreaker cb now).2.2 = none ∧
      (checkCircuitBreaker cb now).1.state = .HALF_OPEN) ∧
    (∀ cb : CircuitBreaker, cb.enabled = true → cb.state = .HALF_OPEN →
      (recordSuccess cb).1.state = .CLOSED ∧
      (recordSuccess cb).1.failures = 0) ∧
    (∀ (cb : CircuitBreaker) (t : Nat), cb.enabled = true →
      cb.state = .HALF_OPEN → (recordFailure cb t).1.state = .OPEN) := by
  refine ⟨?_, ?_, ?_, ?_, ?_, ?_⟩
  · intro ts hlen
    exact applyFailures_reach_open ts (freshCB th rt) rfl rfl (by omega)
      (by simp [freshCB]; omega)
  · intro ts hlen
    have := applyFailures_closed_small ts (freshCB th rt) rfl rfl
      (by simp [freshCB]; omega)
    exact ⟨this.1, by rw [this.2]; simp [freshCB]⟩
  · intro cb s retries t hen hst hlf hlt
    have hcond : ¬(cb.resetTimeoutMs ≤ s.now - t) := by omega
    have hrej : checkCircuitBreaker cb s.now = (cb, [], some .circuitErr) := by
      simp [checkCircuitBreaker, hen, hst, hlf, hcond]
    refine ⟨?_, ?_⟩
    · simp only [request, Bool.false_eq_true, if_false, hrej]
    · simp only [fetchCount, request, Bool.false_eq_true, if_false, hrej]
      rfl
  · intro cb now t hen hst hlf hge
    constructor <;>
      simp [checkCircuitBreaker, changeCircuitState, hen, hst, hlf, hge]
  · intro cb hen hst
    exact recordSuccess_halfOpen cb hen hst
  · intro cb t hen hst
    exact (recordFailure_halfOpen cb t hen hst).1

/-- Witness for the C2 theorem at threshold 2 and cooldown 100. -/
theorem circuitBreaker_transitions_witness :
    (applyFailures (freshCB 2 100) [3, 4]).state = .OPEN ∧
    (applyFailures (freshCB 2 100) [3]).state = .CLOSED ∧
    (applyFailures (freshCB 2 100) [3]).failures = 1 ∧
    (request false 1 cbOpenFresh scriptOkAt10).outcome = .error .circuitErr ∧
    fetchCount (request false 1 cbOpenFresh scriptOkAt10) = 0 ∧
    (checkCircuitBreaker cbOpenFresh 1000).2.2 = none ∧
    (checkCircuitBreaker cbOpenFresh 1000).1.state = .HALF_OPEN ∧
    (recordSuccess cbHalfOpen).1.state = .CLOSED ∧
    (recordSuccess cbHalfOpen).1.failures = 0 ∧
    (recordFailure cbHalfOpen 7).1.state = .OPEN := by
  have h := circuitBreaker_transitions 2 100 (by decide)
  refine ⟨h.1 [3, 4] rfl, (h.2.1 [3] (by decide)).1, (h.2.1 [3] (by decide)).2,
    (h.2.2.1 cbOpenFresh scriptOkAt10 1 0 rfl rfl rfl (by decide)).1,
    (h.2.2.1 cbOpenFresh scriptOkAt10 1 0 rfl rfl rfl (by decide)).2,
    (h.2.2.2.1 cbOpenFresh 1000 0 rfl rfl rfl (by decide)).1,
    (h.2.2.2.1 cbOpenFresh 1000 0 rfl rfl rfl (by decide)).2,
    (h.2.2.2.2.1 cbHalfOpen rfl rfl).1,
    (h.2.2.2.2.1 cbHalfOpen rfl rfl).2,
    h.2.2.2.2.2 cbHalfOpen 7 rfl rfl⟩

/-- C10: emailBulk with hashEmails set never runs per-address validation,
so no validation error is thrown for malformed addresses (for a nonempty
input list); the request bodies carry exactly the md5 hex digests of the
raw submitted strings after CR/LF stripping, lowercasing and trimming,
in order. -/
theorem emailBulk_hashed_bodies (md5hex : String → String)
    (emails : List String) (validate autoBatch : Bool) (hne : emails ≠ []) :
    emailBulkBodies md5hex emails true validate autoBatch
        = .ok (if autoBatch then batchBySize (emails.map (hashEmail md5hex))
            else [emails.map (hashEmail md5hex)]) ∧
    (∀ bodies,
      emailBulkBodies md5hex emails true validate autoBatch = .ok bodies →
      bodies.flatten = emails.map (hashEmail md5hex)) := by
  cases emails with
  | nil => exact absurd rfl hne
  | cons e es =>
    have h1 : emailBulkBodies md5hex (e :: es) true validate autoBatch
        = .ok (if autoBatch
            then batchBySize ((e :: es).map (hashEmail md5hex))
            else [(e :: es).map (hashEmail md5hex)]) := by
      cases validate <;> rfl
    refine ⟨h1, ?_⟩
    intro bodies hb
    rw [h1] at hb
    cases autoBatch with
    | true =>
      simp only [if_true] at hb
      cases hb
      exact chunksOf_flatten (by norm_num) _
    | false =>
      simp only [Bool.false_eq_true, if_false] at hb
      cases hb
      simp

/-- Witness for the C10 theorem on a malformed address. -/
theorem emailBulk_hashed_bodies_witness :
    (["Not An Email\r\n"] : List String) ≠ [] ∧
    emailBulkBodies (fun x => x) ["Not An Email\r\n"] true true true
      = .ok (if true
          then batchBySize
            ((["Not An Email\r\n"] : List String).map (hashEmail (fun x => x)))
          else [(["Not An Email\r\n"] : List String).map
            (hashEmail (fun x => x))]) :=
  ⟨by decide,
    (emailBulk_hashed_bodies (fun x => x) ["Not An Email\r\n"] true true
      (by decide)).1⟩


/-- Witness for the C6 theorem: the merged good list of a concrete
two-batch result is the concatenation of the per-batch good lists. -/
theorem emailMerge_derivation_witness :
    (mergeEmailResults [⟨some ["A@x.com"]⟩, ⟨none⟩, ⟨some ["c@y.org"]⟩]
        ["a@X.com", "b@x.com"]).good = ["A@x.com", "c@y.org"] := by
  have h := emailMerge_derivation
    [⟨some ["A@x.com"]⟩, ⟨none⟩, ⟨some ["c@y.org"]⟩] ["a@X.com", "b@x.com"]
  rw [h.1]
  rfl

end BLA
